import Mathlib

/-
  Verification of the cinema-scrape repository.

  The repository aggregates cinema programme data: each source scraper fetches a
  listing page, discovers detail-page URLs, fetches each detail page, extracts a
  normalized `Film` record, deduplicates/merges, and a shared feed builder turns
  the records into RSS items.

  Modelling conventions (shallow embedding):
  * Scraped text is modelled as `List Char` (`Str`).  The heuristics in the
    sources operate on ASCII text, where Rust byte indexing and `char`
    iteration coincide.
  * External collaborators (HTTP client, HTML/CSS-selector engine, JSON parser,
    chrono date formatting, the rss XML serializer) are modelled as oracle
    parameters: a fetch oracle `Str → Option Str` (`none` covers connection
    errors, non-2xx statuses and unreadable bodies, i.e. everything the code
    treats via `?`/`continue` on `send`/`error_for_status`/`text`), and
    per-page parse oracles that hand the embedded code the text nodes and
    attribute values that the scraper library would yield.  All logic written
    in the repository itself (string heuristics, URL canonicalization, dedup
    and merge, control flow, record assembly) is embedded directly.
  * Rust `u32` arithmetic appears only in the running-time parser; it is
    modelled on `Nat` with the explicit bound 4294967295 and explicit
    saturation, mirroring `parse::<u32>` and `saturating_mul/add`.
-/

namespace CinemaScrape

/-- Scraped strings: lists of characters. -/
abbrev Str := List Char

/-- Shorthand turning a Lean string literal into the `Str` model. -/
def S (s : String) : Str := s.toList

/-- Rust `char::is_ascii_digit`. -/
def isAsciiDigit (c : Char) : Bool := decide (48 ≤ c.toNat ∧ c.toNat ≤ 57)

/-- Rust `str::trim` (whitespace removed from both ends). -/
def trimL (s : Str) : Str :=
  ((s.dropWhile Char.isWhitespace).reverse.dropWhile Char.isWhitespace).reverse

/-- Rust `str::starts_with(pat)`. -/
def startsWithL (s pat : Str) : Bool :=
  match s, pat with
  | _, [] => true
  | [], _ :: _ => false
  | c :: cs, p :: ps => c == p && startsWithL cs ps

/-- Rust `str::ends_with(pat)`. -/
def endsWithL (s pat : Str) : Bool := startsWithL s.reverse pat.reverse

/-- Rust `str::contains(pat)` for a substring pattern. -/
def hasSubL : Str → Str → Bool
  | [], pat => pat.isEmpty
  | c :: t, pat => startsWithL (c :: t) pat || hasSubL t pat

/-- Rust `str::trim_end_matches(c)` for a single-char pattern:
drops every trailing occurrence of `c`. -/
def trimEndMatchesChar (c : Char) (s : Str) : Str :=
  (s.reverse.dropWhile (fun x => x == c)).reverse

/-- Rust ASCII lower-casing of one char (`eq_ignore_ascii_case`, `to_lowercase`
restricted to the ASCII range the scrapers feed it). -/
def asciiLower (c : Char) : Char :=
  if 65 ≤ c.toNat ∧ c.toNat ≤ 90 then Char.ofNat (c.toNat + 32) else c

/-- Rust `str::eq_ignore_ascii_case`. -/
def eqIgnoreAsciiCase (a b : Str) : Bool := a.map asciiLower == b.map asciiLower

/-- Rust `u32::MAX`. -/
def u32Max : Nat := 4294967295

/-- Rust `str::parse::<u32>()`: an optional leading `+`, then one or more
ASCII digits, value within `u32` range. -/
def parseU32 (s : Str) : Option Nat :=
  let t := match s with
    | '+' :: rest => rest
    | _ => s
  if t.isEmpty then none
  else if t.all isAsciiDigit then
    let n := t.foldl (fun acc c => acc * 10 + (c.toNat - 48)) 0
    if n ≤ u32Max then some n else none
  else none

/-- Rust `u32::saturating_mul`. -/
def satMul32 (a b : Nat) : Nat := min (a * b) u32Max

/-- Rust `u32::saturating_add`. -/
def satAdd32 (a b : Nat) : Nat := min (a + b) u32Max

/-- The skip-or-push loop body shared by the skip-on-failure detail loops
(`None => continue`, `Some f => films.push(f)`). -/
def push_opt_step (f : α → Option β) (its : List β) (x : α) : List β :=
  match f x with
  | none => its
  | some y => its ++ [y]

/-- Shared absolutization pattern used by every scraper: keep `http...` URLs,
root-relative paths get the origin prepended, other paths get origin plus `/`. -/
def absolutize (base href : Str) : Str :=
  if startsWithL href (S "http") then href
  else if startsWithL href (S "/") then base ++ href
  else base ++ S "/" ++ href

/-- The common film record (src/lib.rs, `struct Film`).  `running_time` is the
Rust `u32` minute count. -/
structure Film where
  title : Str
  url : Str
  poster_url : Option Str
  cast : Option Str
  release_date : Option Str
  running_time : Option Nat
  synopsis : Option Str
  showtimes : Option (List Str)
deriving DecidableEq, Repr

/-- One RSS item as assembled by `generate_rss`/`generate_rss_merged`
(src/lib.rs).  The XML serialization itself is the external rss crate; this
captures the fields the code feeds to `ItemBuilder`.  `pub_date` records
whether a pubDate was attached (its value is `chrono::Utc::now`, an external
clock). -/
structure RssItem where
  title : Str
  link : Str
  description : Str
  guid : Str
  guid_permalink : Bool
  pub_date : Bool
  categories : List Str
deriving DecidableEq, Repr

/-- src/lib.rs `film_description_and_pub_date` (lines 34-69): builds the
description by pushing the present parts in fixed order and joining with
`<br/>\n`, falling back to `Film: <title>` when no part is present; the
pub-date is attached iff `release_date` contains an Italian month substring. -/
def film_description_and_pub_date (film : Film) : Str × Bool :=
  let parts : List Str := []
  let parts := match film.synopsis with
    | some syn => parts ++ [syn]
    | none => parts
  let parts := match film.cast with
    | some c => parts ++ [S "Cast: " ++ c]
    | none => parts
  let parts := match film.release_date with
    | some d => parts ++ [S "Data: " ++ d]
    | none => parts
  let parts := match film.running_time with
    | some t => parts ++ [S "Durata: " ++ S (toString t) ++ S " minuti"]
    | none => parts
  let parts := match film.poster_url with
    | some p => parts ++ [S "<img src=\"" ++ p ++ S "\" alt=\"Poster\" />"]
    | none => parts
  let parts := match film.showtimes with
    | some sts => if sts.isEmpty then parts else parts ++ [S "Orari: " ++ List.intercalate (S ", ") sts]
    | none => parts
  let description := if parts.isEmpty then S "Film: " ++ film.title
    else List.intercalate (S "<br/>\n") parts
  let pub_date := match film.release_date with
    | some d => hasSubL d (S "Febbraio") || hasSubL d (S "Gennaio") || hasSubL d (S "Marzo")
    | none => false
  (description, pub_date)

/-- The item `generate_rss` (src/lib.rs lines 79-94) builds for one film:
title and link are the film's, the guid is the film's `url` with
`permalink: true`, no category. -/
def rss_item_of_film (film : Film) : RssItem :=
  let dp := film_description_and_pub_date film
  { title := film.title, link := film.url, description := dp.1,
    guid := film.url, guid_permalink := true, pub_date := dp.2, categories := [] }

/-- The item `generate_rss_merged` (src/lib.rs lines 115-136) builds for one
film of one source: same as `rss_item_of_film` plus a single category equal to
the cinema name. -/
def rss_item_with_category (cinema_name : Str) (film : Film) : RssItem :=
  let dp := film_description_and_pub_date film
  { title := film.title, link := film.url, description := dp.1,
    guid := film.url, guid_permalink := true, pub_date := dp.2,
    categories := [cinema_name] }

/-- src/lib.rs `generate_rss` (lines 72-105), up to the external XML writer:
the item list pushed into the channel, one push per film in order. -/
def generate_rss_items (films : List Film) : List RssItem :=
  films.foldl (fun items film => items ++ [rss_item_of_film film]) []

/-- src/lib.rs `generate_rss_merged` (lines 108-148), up to the external XML
writer: the nested loop pushes, for each source in order, one item per film in
order, all into one list. -/
def generate_rss_merged_items (sources : List (Str × List Film)) : List RssItem :=
  sources.foldl
    (fun items p => p.2.foldl (fun its film => its ++ [rss_item_with_category p.1 film]) items)
    []

/-- Helper modelling Rust `str::rfind(c)` together with the two slices the
caller takes: `rfindSplit c s = some (before, after)` when `s = before ++ c ::
after` and `after` holds no `c`; `none` when `c` does not occur. -/
def rfindSplit (c : Char) : Str → Option (Str × Str)
  | [] => none
  | x :: xs =>
    match rfindSplit c xs with
    | some (b, a) => some (x :: b, a)
    | none => if x == c then some ([], xs) else none

/-- src/cinema_trieste_scraper.rs `canonical_film_key` (lines 10-27): strips a
trailing `_YYYYMMDDHHMM` / `-YYYYMMDDHHMM` suffix (12 digits after `_` or `-`)
from the last path segment, provided the segment is longer than 13 chars, and
always reappends a trailing slash.  `format!("{}/{}/", &url[..=last_slash],
base)` keeps the slash at `last_slash` and adds another, hence the doubled
slash in the stripped form. -/
def canonical_film_key (url0 : Str) : Str :=
  let url := trimEndMatchesChar '/' url0
  match rfindSplit '/' url with
  | none => url ++ [ '/' ]
  | some (before, segment) =>
    if 13 < segment.length then
      let pfx := segment.take (segment.length - 12)
      let sfx := segment.drop (segment.length - 12)
      if sfx.all isAsciiDigit then
        match pfx.getLast? with
        | some last =>
          if last == '_' || last == '-' then
            before ++ [ '/' ] ++ [ '/' ] ++ pfx.dropLast ++ [ '/' ]
          else url ++ [ '/' ]
        | none => url ++ [ '/' ]
      else url ++ [ '/' ]
    else url ++ [ '/' ]

/-- Accumulator form of Rust `str::split_whitespace`. -/
def swAux : Str → Str → List Str
  | [], acc => if acc.isEmpty then [] else [acc.reverse]
  | c :: rest, acc =>
    if c.isWhitespace then
      if acc.isEmpty then swAux rest [] else acc.reverse :: swAux rest []
    else swAux rest (c :: acc)

/-- Rust `str::split_whitespace`: maximal runs of non-whitespace chars. -/
def rustSplitWhitespace (s : Str) : List Str := swAux s []

/-- The scan of src/rassegne.rs lines 169-179: walk the tokens after the
`Durata:` label; a token that parses as `u32` sets `hours` when the next token
starts with `ore` and `minutes` when the next token starts with `min`. -/
def durataScan : List Str → Nat × Nat → Nat × Nat
  | [], hm => hm
  | tok :: rest, (h, m) =>
    match parseU32 tok, rest with
    | some n, nxt :: _ =>
      if startsWithL nxt (S "ore") then durataScan rest (n, m)
      else if startsWithL nxt (S "min") then durataScan rest (h, n)
      else durataScan rest (h, m)
    | _, _ => durataScan rest (h, m)

/-- src/rassegne.rs lines 166-184: parse the text after `Durata:` into total
minutes `hours*60 + minutes` with `u32` saturating arithmetic, recording the
value only when positive. -/
def parse_durata_value (rest : Str) : Option Nat :=
  let tokens := rustSplitWhitespace rest
  let hm := durataScan tokens (0, 0)
  let total := satAdd32 (satMul32 hm.1 60) hm.2
  if 0 < total then some total else none

/-- Lexicographic comparison on `Str`: the order `Vec<String>::sort` uses
(byte order, which on the ASCII data here equals char-code order). -/
def lexLe : Str → Str → Bool
  | [], _ => true
  | _ :: _, [] => false
  | a :: xs, b :: ys =>
    if a.toNat < b.toNat then true
    else if b.toNat < a.toNat then false
    else lexLe xs ys

/-- Ordered insertion, building block of the model of `Vec::sort`. -/
def insertS (le : α → α → Bool) (x : α) : List α → List α
  | [] => [x]
  | y :: ys => if le x y then x :: y :: ys else y :: insertS le x ys

/-- Model of Rust `Vec::sort` (the sources sort lists of pairwise-distinct
URLs/ids, where every correct sort returns the same list). -/
def sortL (le : α → α → Bool) (l : List α) : List α := l.foldr (insertS le) []

/-- Boolean sortedness check (adjacent pairs). -/
def sortedB (le : α → α → Bool) : List α → Bool
  | [] => true
  | [_] => true
  | a :: b :: t => le a b && sortedB le (b :: t)

/-- First-occurrence deduplication: the contents of a `HashSet` accumulated
while scanning, listed in insertion order. -/
def dedupFirst (l : List Str) : List Str :=
  l.foldl (fun acc s => if acc.any (fun t => t == s) then acc else acc ++ [s]) []

/-- Fuel-driven core of `trim_start_matches`: each step either stops or
consumes at least one char, so fuel `s.length` makes it total scanning.
(Structural recursion on the fuel keeps every use kernel-evaluable.) -/
def trimStartMatchesSubF (pat : Str) : Nat → Str → Str
  | 0, s => s
  | fuel + 1, s =>
    if pat ≠ [] ∧ startsWithL s pat = true then
      trimStartMatchesSubF pat fuel (s.drop pat.length)
    else s

/-- Rust `str::trim_start_matches(pat)`: repeatedly strip the leading
occurrence of `pat`. -/
def trimStartMatchesSub (pat s : Str) : Str := trimStartMatchesSubF pat s.length s

/-- Rust `str::trim_end_matches(pat)` for a substring pattern. -/
def trimEndMatchesSub (pat : Str) (s : Str) : Str :=
  (trimStartMatchesSub pat.reverse s.reverse).reverse

/-- Fuel-driven core of `str::split(pat)`: non-overlapping left-to-right
matches, empty pieces preserved; fuel `s.length` suffices. -/
def splitBySubF (pat : Str) : Nat → Str → Str → List Str
  | 0, s, cur => [cur.reverse ++ s]
  | fuel + 1, s, cur =>
    match s with
    | [] => [cur.reverse]
    | c :: rest =>
      if pat ≠ [] ∧ startsWithL (c :: rest) pat = true then
        cur.reverse :: splitBySubF pat fuel ((c :: rest).drop pat.length) []
      else splitBySubF pat fuel rest (c :: cur)

/-- Rust `str::split(pat)` for a substring pattern. -/
def splitBySub (pat s : Str) : List Str := splitBySubF pat s.length s []

/-- Fuel-driven core of the `match_indices(pat)` scans: for every
non-overlapping left-to-right match, the tail right after it; fuel `s.length`
suffices. -/
def matchIndicesTailsF (pat : Str) : Nat → Str → List Str
  | 0, _ => []
  | fuel + 1, s =>
    match s with
    | [] => []
    | c :: rest =>
      if pat ≠ [] ∧ startsWithL (c :: rest) pat = true then
        ((c :: rest).drop pat.length) :: matchIndicesTailsF pat fuel ((c :: rest).drop pat.length)
      else matchIndicesTailsF pat fuel rest

/-- Rust `str::match_indices(pat)` up to what the raw-scan fallbacks consume:
for every (non-overlapping, left-to-right) match, the tail of the text right
after the matched pattern. -/
def matchIndicesTails (pat s : Str) : List Str := matchIndicesTailsF pat s.length s

/-- Joined text of one HTML element as every scraper computes it:
`el.text().map(str::trim).filter(|t| !t.is_empty()).collect::<Vec<_>>().join(" ")`
applied to the element's raw text nodes. -/
def elementText (nodes : List Str) : Str :=
  List.intercalate (S " ") ((nodes.map trimL).filter (fun t => !t.isEmpty))

/-- src/new_bev.rs `struct ScheduleEntry` (lines 16-21): one screening row of
the schedule before merging by URL. -/
structure ScheduleEntry where
  title : Str
  url : Str
  showtime : Str
  poster_url : Option Str
deriving DecidableEq, Repr

/-- src/new_bev.rs `struct UniqueProgram` (lines 24-29): one record per unique
program URL after the merge. -/
structure UniqueProgram where
  title : Str
  url : Str
  showtimes : List Str
  poster_url : Option Str
deriving DecidableEq, Repr

/-- One step of the New Beverly merge (src/new_bev.rs lines 61-72):
`by_url.entry(url).or_insert_with(UniqueProgram{..}).showtimes.push(showtime)`.
The `HashMap` is modelled as a list keyed by `url` in first-insertion order
(Rust's `HashMap` iteration order is unspecified; the claims proved below do
not depend on it). -/
def mergePush (acc : List UniqueProgram) (e : ScheduleEntry) : List UniqueProgram :=
  if acc.any (fun p => p.url == e.url) then
    acc.map (fun p => if p.url == e.url then { p with showtimes := p.showtimes ++ [e.showtime] } else p)
  else
    acc ++ [{ title := e.title, url := e.url, showtimes := [e.showtime], poster_url := e.poster_url }]

/-- src/new_bev.rs lines 59-73: deduplicate schedule entries by program URL,
merging all showtimes into the first-seen record. -/
def merge_by_url (entries : List ScheduleEntry) : List UniqueProgram :=
  entries.foldl mergePush []

/-- Rust `char::is_ascii_alphanumeric`. -/
def isAsciiAlphanumeric (c : Char) : Bool :=
  decide ((48 ≤ c.toNat ∧ c.toNat ≤ 57) ∨ (65 ≤ c.toNat ∧ c.toNat ≤ 90) ∨ (97 ≤ c.toNat ∧ c.toNat ≤ 122))

/-- src/cinema_padova.rs `event_name_slug` (lines 70-76): lowercase the title
and replace every non-alphanumeric char by `_`. -/
def event_name_slug (titolo : Str) : Str :=
  (titolo.map asciiLower).map (fun c => if isAsciiAlphanumeric c then c else '_')

/-- src/cinema_padova.rs `struct RexEvento`: one scheduled screening,
`inizio` in milliseconds since the epoch. -/
structure RexEvento where
  inizio : Int
deriving DecidableEq, Repr

/-- src/cinema_padova.rs `struct RexTitolo`: one JSON entry of the Rex API. -/
structure RexTitolo where
  titolo : Str
  autore : Str
  durata : Str
  descrizione : Str
  locandina : Str
  categoria_film : Str
  eventi : List RexEvento
deriving DecidableEq, Repr

/-- src/cinema_padova.rs lines 96-162: build the film list from the decoded
JSON.  `fmt` models the external chrono pipeline
`DateTime::from_timestamp_millis(e.inizio).map(format_showtime)`. -/
def padova_films (fmt : Int → Option Str) (titoli : List RexTitolo) : List Film :=
  titoli.foldl (fun films t =>
    if t.categoria_film ≠ S "y" then films
    else
      let title := trimL t.titolo
      if title.isEmpty then films
      else
        let slug := event_name_slug title
        let url := S "https://www.cinemarex.it/programmazione/evento?eventName=" ++ slug
        let running_time := parseU32 (trimL t.durata)
        let syn := trimL t.descrizione
        let synopsis := if syn.isEmpty then none else some syn
        let aut := trimL t.autore
        let cast := if aut.isEmpty then none else some (S "Regia: " ++ aut)
        let shows := dedupFirst (t.eventi.filterMap (fun e => fmt e.inizio))
        let showtimes := if shows.isEmpty then none else some shows
        films ++ [{ title := title, url := url, poster_url := none, cast := cast,
                    release_date := none, running_time := running_time,
                    synopsis := synopsis, showtimes := showtimes }]) []

/-- Origin of the Cinema Ariston Trieste site. -/
def triesteBase : Str := S "https://www.lacappellaunderground.org"

/-- src/cinema_trieste_scraper.rs `PROGRAMME_URL`. -/
def triesteListingUrl : Str := S "https://www.lacappellaunderground.org/ariston/programma/"

/-- Loop body of the Trieste URL discovery (src/cinema_trieste_scraper.rs
lines 61-80): the state is the `seen` key set (in insertion order) and the
collected URLs. -/
def trieste_url_step (st : List Str × List Str) (h0 : Str) : List Str × List Str :=
  let href := trimL h0
  if href.isEmpty then st
  else
    let full := absolutize triesteBase href
    let key := canonical_film_key full
    if st.1.any (fun k => k == key) then st
    else (st.1 ++ [key], st.2 ++ [full])

/-- src/cinema_trieste_scraper.rs lines 55-82: walk the `a[href*="/film/"]`
anchors of the listing in document order, trim, absolutize, and keep the first
URL per canonical film key. -/
def trieste_listing_urls (hrefs : List Str) : List Str :=
  (hrefs.foldl trieste_url_step ([], [])).2

/-- Fields the Trieste detail-page extraction (src/cinema_trieste_scraper.rs
lines 108-331) yields for one fetched body, before the record is assembled:
`title_text` is the nonempty joined `h1` text when one exists (the code falls
back to the URL itself otherwise, line 130). -/
structure TriesteFields where
  title_text : Option Str
  poster_url : Option Str
  cast : Option Str
  release_date : Option Str
  running_time : Option Nat
  synopsis : Option Str
  showtimes : Option (List Str)
deriving DecidableEq, Repr

/-- Oracles for one Trieste run: `fetch` is the HTTP client
(`send` + `error_for_status` + `text`, `none` on any failure), `anchors` the
selector query on the listing body, `detail` the parse of a detail body
(`none` models a missing `#portfolio-single-content` container, which the code
skips, line 110-116). -/
structure TriesteWorld where
  fetch : Str → Option Str
  anchors : Str → List Str
  detail : Str → Option TriesteFields

/-- One iteration of the Trieste detail loop (src/cinema_trieste_scraper.rs
lines 90-343): fetch failures and a missing content container skip the
candidate; otherwise the record is assembled, the title falling back to the
URL when no `h1` text was found. -/
def trieste_detail_step (w : TriesteWorld) (url : Str) : Option Film :=
  match w.fetch url with
  | none => none
  | some body =>
    match w.detail body with
    | none => none
    | some f =>
      some { title := f.title_text.getD url, url := url, poster_url := f.poster_url,
             cast := f.cast, release_date := f.release_date,
             running_time := f.running_time, synopsis := f.synopsis,
             showtimes := f.showtimes }

/-- src/cinema_trieste_scraper.rs `fetch_films` (lines 40-346): a failed
listing fetch propagates (`?`); each candidate is processed with
skip-on-failure. -/
def trieste_fetch_films (w : TriesteWorld) : Except Unit (List Film) :=
  match w.fetch triesteListingUrl with
  | none => .error ()
  | some body =>
    let film_urls := trieste_listing_urls (w.anchors body)
    .ok (film_urls.foldl (push_opt_step (trieste_detail_step w)) [])

/-- src/cinemazero.rs `PROGRAMMAZIONE_URL`. -/
def czListingUrl : Str := S "https://cinemazero.it/programmazione/"

/-- src/cinemazero.rs `CINEMAZERO_FILM_PREFIX`. -/
def czFilmPfx : Str := S "https://cinemazero.it/film/"

/-- src/cinemazero.rs lines 40-69: from the `a[href]` anchors of the listing,
keep hrefs containing `/film/`, absolutize against `https://cinemazero.it`,
keep only cinemazero film pages, first occurrence each. -/
def cz_listing_urls (hrefs : List Str) : List Str :=
  (hrefs.foldl (fun (st : List Str × List Str) h0 =>
    let href := trimL h0
    if !(hasSubL href (S "/film/")) then st
    else
      let absolute := absolutize (S "https://cinemazero.it") href
      if startsWithL absolute czFilmPfx then
        if st.1.any (fun k => k == absolute) then st
        else (st.1 ++ [absolute], st.2 ++ [absolute])
      else st) ([], [])).2

/-- Oracles for one Cinemazero run: `fetch` as above, `anchors` the `a[href]`
attribute values of the listing body, `film_of` the whole detail-page
extraction (src/cinemazero.rs lines 92-397, external HTML parsing plus
linear-text heuristics), which always produces a record — the title falls back
to the first text line or the URL. -/
structure CzWorld where
  fetch : Str → Option Str
  anchors : Str → List Str
  film_of : Str → Str → Film

/-- The Cinemazero detail loop (src/cinemazero.rs lines 78-398).  Unlike the
Trieste loop, every per-candidate GET uses `?`: the first failing fetch aborts
the whole `fetch_films` call with an error. -/
def cz_detail_loop (w : CzWorld) : List Str → Except Unit (List Film)
  | [] => .ok []
  | u :: us =>
    match w.fetch u with
    | none => .error ()
    | some body =>
      match cz_detail_loop w us with
      | .error e => .error e
      | .ok films => .ok (w.film_of u body :: films)

/-- src/cinemazero.rs `fetch_films` (lines 24-401): listing fetch with `?`,
early `Ok(vec![])` on empty discovery, then the abort-on-failure detail
loop. -/
def cinemazero_fetch_films (w : CzWorld) : Except Unit (List Film) :=
  match w.fetch czListingUrl with
  | none => .error ()
  | some body =>
    let film_urls := cz_listing_urls (w.anchors body)
    if film_urls.isEmpty then .ok []
    else cz_detail_loop w film_urls

/-- Origin of the Berlinale site. -/
def berlinaleBase : Str := S "https://www.berlinale.de"

/-- src/berlinale.rs `is_film_detail_url` (lines 64-71): film detail URLs
contain `/programme/`, end in `.html`, and their last path segment (after
stripping `.html` suffixes and trailing `?`) is a numeric id of at least 6
digits. -/
def is_film_detail_url (url : Str) : Bool :=
  if !(hasSubL url (S "/programme/")) || !(endsWithL url (S ".html")) then false
  else
    let before_html := trimEndMatchesChar '?' (trimEndMatchesSub (S ".html") url)
    let id_part := match rfindSplit '/' before_html with
      | some (_, a) => a
      | none => before_html
    decide (6 ≤ id_part.length) && id_part.all isAsciiDigit

/-- src/berlinale.rs `extract_film_urls_from_raw` (lines 106-136): scan the
raw HTML for `/programme/ID.html` (plain and JSON-escaped), falling back to
`2026` + 5 digits, and return the sorted detail URLs.  Note the source quirk
`find(|c| !digit).unwrap_or(0)`: a tail that is all digits yields length 0 and
is skipped. -/
def berlinale_raw_ids (html : Str) : List Str :=
  let ids := (matchIndicesTails (S "/programme/") html ++ matchIndicesTails (S "\\/programme\\/") html).foldl
    (fun acc after =>
      let e := (after.findIdx? (fun c => !(isAsciiDigit c))).getD 0
      if 6 ≤ e then
        let id := after.take e
        let rest := after.drop e
        if startsWithL rest (S ".html") || startsWithL rest (S "\\") then
          if acc.any (fun t => t == id) then acc else acc ++ [id]
        else acc
      else acc) []
  let ids := if ids.isEmpty then
      (matchIndicesTails (S "2026") html).foldl (fun acc after =>
        if 5 ≤ after.length ∧ (after.take 5).all isAsciiDigit then
          let id := S "2026" ++ after.take 5
          if acc.any (fun t => t == id) then acc else acc ++ [id]
        else acc) []
    else ids
  sortL lexLe (ids.map (fun id => S "https://www.berlinale.de/en/2026/programme/" ++ id ++ S ".html"))

/-- src/berlinale.rs `extract_film_urls` (lines 74-103): absolutize the
`a[href*="/programme/"][href$=".html"]` anchors (`hrefs`), keep the film
detail URLs as a set, sort them; fall back to the raw scan when the
structural pass finds nothing. -/
def berlinale_extract_film_urls (hrefs : List Str) (html : Str) : List Str :=
  let urls := hrefs.foldl (fun acc h0 =>
    let href := trimL h0
    let full := absolutize berlinaleBase href
    if is_film_detail_url full then
      if acc.any (fun t => t == full) then acc else acc ++ [full]
    else acc) []
  if urls.isEmpty then berlinale_raw_ids html
  else sortL lexLe urls

/-- Raw text-node lists of the elements the Porto Astra title chain inspects
(src/porto_astra.rs lines 141-170): `headings` for `h1, h2, h3`, `bolds` for
`b, strong`, each in document order. -/
structure PaDoc where
  headings : List (List Str)
  bolds : List (List Str)

/-- The remaining Porto Astra detail extraction (src/porto_astra.rs lines
177-289: poster, REGIA/ATTORI, Durata, synopsis, ORARI showtimes), abstracted
as one oracle result per body. -/
structure PaFields where
  poster_url : Option Str
  cast : Option Str
  running_time : Option Nat
  synopsis : Option Str
  showtimes : Option (List Str)
deriving DecidableEq, Repr

/-- Oracles for one Porto Astra run. -/
structure PaWorld where
  listing_url : Str
  fetch : Str → Option Str
  anchors : Str → List Str
  parse : Str → PaDoc
  fields : Str → PaFields

/-- src/porto_astra.rs lines 155-170: first `b`/`strong` element whose joined
text is nonempty and mentions neither `REGIA` nor `ATTORI`. -/
def pa_title_from_bolds : List (List Str) → Option Str
  | [] => none
  | nodes :: rest =>
    let t := elementText nodes
    if !t.isEmpty && !(hasSubL t (S "REGIA")) && !(hasSubL t (S "ATTORI")) then some t
    else pa_title_from_bolds rest

/-- src/porto_astra.rs lines 141-175: title from the first `h1, h2, h3`
element when its joined text is nonempty, else from the bold chain; `none`
makes the caller skip the record. -/
def pa_title (doc : PaDoc) : Option Str :=
  let fromHeading := match doc.headings.head? with
    | some nodes =>
      let t := elementText nodes
      if t.isEmpty then none else some t
    | none => none
  match fromHeading with
  | some t => some t
  | none => pa_title_from_bolds doc.bolds

/-- src/porto_astra.rs lines 78-103: unique absolutized `a[href*="/film/"]`
URLs of the listing.  The source collects them in a `HashSet` and iterates it
(unspecified order); modelled in first-occurrence order, on which the claims
below do not depend. -/
def pa_listing_urls (hrefs : List Str) : List Str :=
  hrefs.foldl (fun acc h0 =>
    let href := trimL h0
    if href.isEmpty then acc
    else
      let full := absolutize (S "https://portoastra.it") href
      if acc.any (fun u => u == full) then acc else acc ++ [full]) []

/-- One iteration of the Porto Astra detail loop (src/porto_astra.rs lines
112-301): fetch failures skip, a record with no discoverable title is
skipped (line 172-175), otherwise the record is assembled. -/
def pa_detail_step (w : PaWorld) (url : Str) : Option Film :=
  match w.fetch url with
  | none => none
  | some body =>
    match pa_title (w.parse body) with
    | none => none
    | some t =>
      let f := w.fields body
      some { title := t, url := url, poster_url := f.poster_url, cast := f.cast,
             release_date := none, running_time := f.running_time,
             synopsis := f.synopsis, showtimes := f.showtimes }

/-- src/porto_astra.rs `fetch_films` (lines 63-304): listing fetch with `?`,
`Ok(vec![])` on empty discovery, skip-on-failure detail loop. -/
def porto_astra_fetch_films (w : PaWorld) : Except Unit (List Film) :=
  match w.fetch w.listing_url with
  | none => .error ()
  | some body =>
    let urls := pa_listing_urls (w.anchors body)
    if urls.isEmpty then .ok []
    else .ok (urls.foldl (push_opt_step (pa_detail_step w)) [])

/-- Raw text-node lists of the `h1..h6` elements a Cinergia detail page
yields, in document order (src/cinergia_conegliano.rs lines 128-151). -/
structure CinDoc where
  headings : List (List Str)

/-- The remaining Cinergia detail extraction (src/cinergia_conegliano.rs lines
153-281: poster, Durata, Director/With, Plot, showtimes), abstracted as one
oracle result per body. -/
structure CinFields where
  poster_url : Option Str
  cast : Option Str
  running_time : Option Nat
  synopsis : Option Str
  showtimes : Option (List Str)
deriving DecidableEq, Repr

/-- Oracles for one Cinergia Conegliano run.  `base_url` is the constructor's
trailing-slash-trimmed base, `ref_date` the external `chrono::Local::now`
date string. -/
structure CinWorld where
  base_url : Str
  ref_date : Str
  fetch : Str → Option Str
  anchors : Str → List Str
  parse : Str → CinDoc
  fields : Str → CinFields

/-- src/cinergia_conegliano.rs `extract_film_ids` (lines 32-63): numeric film
ids from the `a[href*="/film/"]` anchors, deduplicated and sorted. -/
def cin_ids_from_doc (hrefs : List Str) : List Str :=
  let ids := hrefs.foldl (fun acc h0 =>
    let href := trimL h0
    let path := href.takeWhile (fun c => !(c == '?'))
    let restOpt : Option Str :=
      if startsWithL path (S "/film/") then
        some (trimEndMatchesChar '/' (trimStartMatchesSub (S "/film/") path))
      else if hasSubL path (S "/film/") then
        some (trimEndMatchesChar '/' (((splitBySub (S "/film/") path).get? 1).getD []))
      else none
    match restOpt with
    | none => acc
    | some rest =>
      let id_part := rest.takeWhile (fun c => !(c == '/'))
      if !id_part.isEmpty && id_part.all isAsciiDigit then
        if acc.any (fun t => t == id_part) then acc else acc ++ [id_part]
      else acc) []
  sortL lexLe ids

/-- src/cinergia_conegliano.rs `extract_film_ids_from_raw` (lines 14-29):
numeric ids following `/film/` anywhere in the raw HTML, deduplicated and
sorted. -/
def cin_ids_from_raw (html : Str) : List Str :=
  let ids := (matchIndicesTails (S "/film/") html).foldl (fun acc after =>
    let id := after.takeWhile isAsciiDigit
    if id.isEmpty then acc
    else if acc.any (fun t => t == id) then acc else acc ++ [id]) []
  sortL lexLe ids

/-- src/cinergia_conegliano.rs lines 129-149: first `h1..h6` element whose
joined text is nonempty and is not `Plot`/`Info`/`Trama` (ASCII
case-insensitive); `none` sends the caller to the `Film <id>` fallback. -/
def cin_title_scan : List (List Str) → Option Str
  | [] => none
  | nodes :: rest =>
    let text := elementText nodes
    if !text.isEmpty && !(eqIgnoreAsciiCase text (S "Plot"))
        && !(eqIgnoreAsciiCase text (S "Info")) && !(eqIgnoreAsciiCase text (S "Trama")) then
      some text
    else cin_title_scan rest

/-- src/cinergia_conegliano.rs `fetch_films` (lines 79-296): listing fetch
with `?`, structural id discovery with raw fallback, `Ok(vec![])` on empty
discovery, then a skip-on-failure detail loop; the title falls back to
`Film <id>` (line 150). -/
def cinergia_fetch_films (w : CinWorld) : Except Unit (List Film) :=
  match w.fetch w.base_url with
  | none => .error ()
  | some body =>
    let from_doc := cin_ids_from_doc (w.anchors body)
    let film_ids := if from_doc.isEmpty then cin_ids_from_raw body else from_doc
    if film_ids.isEmpty then .ok []
    else .ok (film_ids.foldl (fun films id =>
      let film_url := w.base_url ++ S "/film/" ++ id ++ S "?ref_date=" ++ w.ref_date
      match w.fetch film_url with
      | none => films
      | some b =>
        let doc := w.parse b
        let f := w.fields b
        films ++ [{ title := (cin_title_scan doc.headings).getD (S "Film " ++ id),
                    url := film_url, poster_url := f.poster_url, cast := f.cast,
                    release_date := none, running_time := f.running_time,
                    synopsis := f.synopsis, showtimes := f.showtimes }]) [])


/-- One New Beverly schedule entry used by the C2 counterexample. -/
def nbEntryCex : ScheduleEntry :=
  { title := S "The Film", url := S "https://thenewbev.com/program/x",
    showtime := S "Sat Feb 7 - 7:30", poster_url := none }

/-- New Beverly schedule entries used by the C2 witness. -/
def nbEntryW1 : ScheduleEntry :=
  { title := S "T1", url := S "https://thenewbev.com/program/y",
    showtime := S "Sun 1", poster_url := some (S "https://thenewbev.com/p.jpg") }

/-- Second entry of the C2 witness (same URL, no poster). -/
def nbEntryW2 : ScheduleEntry :=
  { title := S "T2", url := S "https://thenewbev.com/program/y",
    showtime := S "Mon 2", poster_url := none }

/-- Listing body used by the concrete Cinemazero run. -/
def czBodyCex : Str := S "listing"

/-- Concrete Cinemazero run: three candidates, the middle detail fetch
fails. -/
def czWorldCex : CzWorld :=
  { fetch := fun u =>
      if u == czListingUrl then some czBodyCex
      else if u == S "https://cinemazero.it/film/a" then some (S "pageA")
      else if u == S "https://cinemazero.it/film/c" then some (S "pageC")
      else none,
    anchors := fun _ => [S "/film/a", S "/film/b", S "/film/c"],
    film_of := fun u _ =>
      { title := u, url := u, poster_url := none, cast := none, release_date := none,
        running_time := none, synopsis := none, showtimes := none } }

/-- Concrete Trieste run whose listing fetch fails. -/
def triesteWorldFail : TriesteWorld :=
  { fetch := fun _ => none, anchors := fun _ => [], detail := fun _ => none }

/-- Detail fields returned by the concrete Trieste detail oracle. -/
def triesteFieldsW : TriesteFields :=
  { title_text := some (S "A Film"), poster_url := none, cast := none,
    release_date := none, running_time := some 100, synopsis := none, showtimes := none }

/-- Concrete Trieste run: two candidates, the second detail fetch fails. -/
def triesteWorldOk : TriesteWorld :=
  { fetch := fun u =>
      if u == triesteListingUrl then some (S "listing")
      else if u == S "https://www.lacappellaunderground.org/film/good/" then some (S "detail")
      else none,
    anchors := fun _ => [S "/film/good/", S "/film/bad/"],
    detail := fun _ => some triesteFieldsW }

/-- Concrete Trieste run where every fetch succeeds (C3 witness). -/
def triesteWorld3 : TriesteWorld :=
  { fetch := fun _ => some (S "x"),
    anchors := fun _ => [S "/film/one/", S "/film/two/"],
    detail := fun _ => some triesteFieldsW }

/-- First record `triesteWorld3` produces. -/
def triesteFilm3a : Film :=
  { title := S "A Film", url := S "https://www.lacappellaunderground.org/film/one/",
    poster_url := none, cast := none, release_date := none, running_time := some 100,
    synopsis := none, showtimes := none }

/-- Second record `triesteWorld3` produces. -/
def triesteFilm3b : Film :=
  { title := S "A Film", url := S "https://www.lacappellaunderground.org/film/two/",
    poster_url := none, cast := none, release_date := none, running_time := some 100,
    synopsis := none, showtimes := none }

/-- Rex JSON entry `DUNE` (C3 counterexample). -/
def padovaTitoloA : RexTitolo :=
  { titolo := S "DUNE", autore := S "", durata := S "", descrizione := S "",
    locandina := S "", categoria_film := S "y", eventi := [] }

/-- Rex JSON entry `dune` — same slug as `DUNE` (C3 counterexample). -/
def padovaTitoloB : RexTitolo :=
  { titolo := S "dune", autore := S "", durata := S "", descrizione := S "",
    locandina := S "", categoria_film := S "y", eventi := [] }

/-- Record produced for `DUNE`. -/
def padovaFilmA : Film :=
  { title := S "DUNE",
    url := S "https://www.cinemarex.it/programmazione/evento?eventName=dune",
    poster_url := none, cast := none, release_date := none, running_time := none,
    synopsis := none, showtimes := none }

/-- Record produced for `dune` — same URL, different title. -/
def padovaFilmB : Film :=
  { title := S "dune",
    url := S "https://www.cinemarex.it/programmazione/evento?eventName=dune",
    poster_url := none, cast := none, release_date := none, running_time := none,
    synopsis := none, showtimes := none }

/-- Concrete Porto Astra run whose listing yields no anchors (C8 witness). -/
def paWorld8 : PaWorld :=
  { listing_url := S "https://portoastra.it/film-della-settimana/",
    fetch := fun _ => some (S "empty"),
    anchors := fun _ => [],
    parse := fun _ => { headings := [], bolds := [] },
    fields := fun _ => { poster_url := none, cast := none, running_time := none,
                         synopsis := none, showtimes := none } }

/-- Concrete Cinergia run whose listing yields no ids at all (C8 witness). -/
def cinWorld8 : CinWorld :=
  { base_url := S "https://coneglianocinergia.18tickets.it",
    ref_date := S "2026-02-13",
    fetch := fun _ => some (S "nothing here"),
    anchors := fun _ => [],
    parse := fun _ => { headings := [] },
    fields := fun _ => { poster_url := none, cast := none, running_time := none,
                         synopsis := none, showtimes := none } }

/-- Concrete Cinergia run: one film id, a detail page with no headings
(C9 counterexample). -/
def cinWorld9 : CinWorld :=
  { base_url := S "https://coneglianocinergia.18tickets.it",
    ref_date := S "2026-02-13",
    fetch := fun _ => some (S "see /film/41324 now"),
    anchors := fun _ => [S "/film/41324"],
    parse := fun _ => { headings := [] },
    fields := fun _ => { poster_url := none, cast := none, running_time := none,
                         synopsis := none, showtimes := none } }

/-- The placeholder-titled record `cinWorld9` emits. -/
def cinFilm9 : Film :=
  { title := S "Film 41324",
    url := S "https://coneglianocinergia.18tickets.it/film/41324?ref_date=2026-02-13",
    poster_url := none, cast := none, release_date := none, running_time := none,
    synopsis := none, showtimes := none }

/-- Concrete Porto Astra run with one titled detail page (C9 witness). -/
def paWorld9 : PaWorld :=
  { listing_url := S "https://portoastra.it/film-della-settimana/",
    fetch := fun _ => some (S "page"),
    anchors := fun _ => [S "/film/uno/"],
    parse := fun _ => { headings := [[S "Il Film"]], bolds := [] },
    fields := fun _ => { poster_url := none, cast := none, running_time := none,
                         synopsis := none, showtimes := none } }

/-- The record `paWorld9` emits. -/
def paFilm9 : Film :=
  { title := S "Il Film", url := S "https://portoastra.it/film/uno/",
    poster_url := none, cast := none, release_date := none, running_time := none,
    synopsis := none, showtimes := none }

/-- A record with every optional field populated (C5 witness). -/
def filmAllW : Film :=
  { title := S "Il Grande Film", url := S "https://example.org/film/1",
    poster_url := some (S "https://example.org/p.jpg"),
    cast := some (S "Regia: A. Regista"),
    release_date := some (S "12 Febbraio 2026"),
    running_time := some 102,
    synopsis := some (S "Una storia."),
    showtimes := some [S "Venerd\u00ec 13 febbraio ore 17:30", S "Sabato 14 febbraio ore 21:00"] }

/-- A record with every optional field absent (C5 witness). -/
def filmNoneW : Film :=
  { title := S "Solo Titolo", url := S "https://example.org/film/2",
    poster_url := none, cast := none, release_date := none, running_time := none,
    synopsis := none, showtimes := none }

/-- Refinement-side definition following the spec's words (section 4.5): the
description parts, in the fixed order synopsis, `Cast:`, `Data:`,
`Durata: N minuti`, inline poster, `Orari:`, one part per present field (an
empty showtime list yields no part, matching the code's guard). -/
def spec_description_parts (film : Film) : List Str :=
  (match film.synopsis with | some s => [s] | none => []) ++
  (match film.cast with | some c => [S "Cast: " ++ c] | none => []) ++
  (match film.release_date with | some d => [S "Data: " ++ d] | none => []) ++
  (match film.running_time with
    | some t => [S "Durata: " ++ S (toString t) ++ S " minuti"]
    | none => []) ++
  (match film.poster_url with
    | some p => [S "<img src=\"" ++ p ++ S "\" alt=\"Poster\" />"]
    | none => []) ++
  (match film.showtimes with
    | some sts => if sts.isEmpty then [] else [S "Orari: " ++ List.intercalate (S ", ") sts]
    | none => [])

/-- A push-only `foldl` is a `map`. -/
theorem foldl_push_map (f : α → β) (l : List α) (acc : List β) :
    l.foldl (fun its x => its ++ [f x]) acc = acc ++ l.map f := by
  induction l generalizing acc with
  | nil => simp
  | cons a t ih => simp [List.foldl_cons, ih, List.append_assoc]

/-- A push-or-skip `foldl` is a `filterMap`. -/
theorem foldl_opt_filterMap (f : α → Option β) (l : List α) (acc : List β) :
    l.foldl (push_opt_step f) acc = acc ++ l.filterMap f := by
  induction l generalizing acc with
  | nil => simp
  | cons a t ih =>
    cases h : f a with
    | none => simp [List.foldl_cons, push_opt_step, h, ih, List.filterMap_cons]
    | some y => simp [List.foldl_cons, push_opt_step, h, ih, List.filterMap_cons, List.append_assoc]

/-- Claim C10: the feed generators emit exactly one feed item per input
record, in input order — `generate_rss_items` is a `map` over the films, and
`generate_rss_merged_items` is the source-major concatenation of per-source
maps; nothing is dropped, duplicated or reordered. -/
theorem feed_items_one_per_record_in_order (films : List Film) (sources : List (Str × List Film)) :
    generate_rss_items films = films.map rss_item_of_film ∧
    generate_rss_merged_items sources =
      (sources.map (fun p => p.2.map (rss_item_with_category p.1))).flatten := by
  constructor
  · simpa [generate_rss_items] using foldl_push_map rss_item_of_film films []
  · have key : ∀ (ss : List (Str × List Film)) (acc : List RssItem),
        ss.foldl (fun items p => p.2.foldl (fun its film => its ++ [rss_item_with_category p.1 film]) items) acc
          = acc ++ (ss.map (fun p => p.2.map (rss_item_with_category p.1))).flatten := by
      intro ss
      induction ss with
      | nil => intro acc; simp
      | cons hd tl ih =>
        intro acc
        rw [List.foldl_cons, foldl_push_map, ih]
        simp [List.append_assoc]
    simpa [generate_rss_merged_items] using key sources []

/-- Claim C5: each feed entry's guid is the record's `url` (permalink), the
body concatenates synopsis, `Cast:`, `Data:`, `Durata: N minuti`, the inline
poster image and `Orari:` in that fixed order (present fields only), and a
record with every optional field absent gets the body `Film: <title>`. -/
theorem feed_entry_guid_and_description (film : Film) :
    (rss_item_of_film film).guid = film.url ∧
    (rss_item_of_film film).guid_permalink = true ∧
    (∀ syn c d t p sts, film.synopsis = some syn → film.cast = some c →
      film.release_date = some d → film.running_time = some t →
      film.poster_url = some p → film.showtimes = some sts → sts ≠ [] →
      (rss_item_of_film film).description =
        syn ++ S "<br/>\n" ++ (S "Cast: " ++ c) ++ S "<br/>\n" ++ (S "Data: " ++ d)
          ++ S "<br/>\n" ++ (S "Durata: " ++ S (toString t) ++ S " minuti") ++ S "<br/>\n"
          ++ (S "<img src=\"" ++ p ++ S "\" alt=\"Poster\" />") ++ S "<br/>\n"
          ++ (S "Orari: " ++ List.intercalate (S ", ") sts)) ∧
    (film.synopsis = none → film.cast = none → film.release_date = none →
      film.running_time = none → film.poster_url = none → film.showtimes = none →
      (rss_item_of_film film).description = S "Film: " ++ film.title) ∧
    (rss_item_of_film film).description =
      (if spec_description_parts film = [] then S "Film: " ++ film.title
       else List.intercalate (S "<br/>\n") (spec_description_parts film)) := by
  refine ⟨rfl, rfl, ?_, ?_, ?_⟩
  · intro syn c d t p sts h1 h2 h3 h4 h5 h6 hne
    have hempty : sts.isEmpty = false := by
      cases sts with
      | nil => exact absurd rfl hne
      | cons a l => rfl
    simp only [rss_item_of_film, film_description_and_pub_date, h1, h2, h3, h4, h5, h6, hempty]
    simp [List.intercalate, List.intersperse, List.append_assoc]
  · intro h1 h2 h3 h4 h5 h6
    simp only [rss_item_of_film, film_description_and_pub_date, h1, h2, h3, h4, h5, h6]
    simp
  · simp only [rss_item_of_film, film_description_and_pub_date, spec_description_parts]
    cases film.synopsis <;> cases film.cast <;> cases film.release_date <;>
      cases film.running_time <;> cases film.poster_url <;> cases hs : film.showtimes <;>
      try simp
    all_goals
      rename_i sts
      cases sts <;> simp

/-- `lexLe` is total. -/
theorem lexLe_total (a : Str) : ∀ b : Str, lexLe a b = true ∨ lexLe b a = true := by
  induction a with
  | nil => intro b; left; simp [lexLe]
  | cons x xs ih =>
    intro b
    cases b with
    | nil => right; simp [lexLe]
    | cons y ys =>
      by_cases h1 : x.toNat < y.toNat
      · left; simp [lexLe, h1]
      · by_cases h2 : y.toNat < x.toNat
        · right; simp [lexLe, h2]
        · cases ih ys with
          | inl h => left; simp [lexLe, h1, h2, h]
          | inr h => right; simp [lexLe, h1, h2, h]

/-- Inserting into a sorted list keeps it sorted (for a total comparison). -/
theorem sortedB_insertS (le : α → α → Bool) (tot : ∀ a b, le a b = true ∨ le b a = true)
    (x : α) : ∀ l : List α, sortedB le l = true → sortedB le (insertS le x l) = true := by
  intro l
  induction l with
  | nil => intro _; simp [insertS, sortedB]
  | cons y ys ih =>
    intro h
    by_cases hxy : le x y = true
    · simp only [insertS, hxy, if_pos]
      simpa [sortedB, hxy] using h
    · have hyx : le y x = true := (tot x y).resolve_left hxy
      cases ys with
      | nil => simp [insertS, hxy, sortedB, hyx]
      | cons z zs =>
        have h1 : le y z = true ∧ sortedB le (z :: zs) = true := by
          simpa [sortedB] using h
        have ih' := ih h1.2
        by_cases hxz : le x z = true
        · have e2 : insertS le x (z :: zs) = x :: z :: zs := by simp [insertS, hxz]
          have e1 : insertS le x (y :: z :: zs) = y :: x :: z :: zs := by
            simp [insertS, hxy, hxz]
          rw [e1]
          simp [sortedB, hyx, hxz, h1.2]
        · have e2 : insertS le x (z :: zs) = z :: insertS le x zs := by simp [insertS, hxz]
          have e1 : insertS le x (y :: z :: zs) = y :: z :: insertS le x zs := by
            simp [insertS, hxy, hxz]
          rw [e1]
          rw [e2] at ih'
          have : sortedB le (y :: z :: insertS le x zs) = (le y z && sortedB le (z :: insertS le x zs)) := by
            simp [sortedB]
          rw [this, h1.1, ih']
          rfl

/-- The model of `Vec::sort` returns a sorted list. -/
theorem sortedB_sortL (le : α → α → Bool) (tot : ∀ a b, le a b = true ∨ le b a = true)
    (l : List α) : sortedB le (sortL le l) = true := by
  induction l with
  | nil => simp [sortL, sortedB]
  | cons a t ih =>
    simpa [sortL, List.foldr_cons] using sortedB_insertS le tot a (sortL le t) ih

/-- Claim C7 (amended): Berlinale URL discovery (both the structural pass and
the raw fallback) returns a lexicographically sorted list of detail URLs. -/
theorem berlinale_discovery_sorted (hrefs : List Str) (html : Str) :
    sortedB lexLe (berlinale_extract_film_urls hrefs html) = true := by
  unfold berlinale_extract_film_urls
  simp only []
  split
  · unfold berlinale_raw_ids
    exact sortedB_sortL lexLe lexLe_total _
  · exact sortedB_sortL lexLe lexLe_total _

/-- Claim C7 (counterexample): the Trieste listing discovery keeps document
order and does not sort — anchors appearing in reverse lexicographic order
come out unsorted. -/
theorem trieste_discovery_not_sorted :
    trieste_listing_urls [S "/film/b/", S "/film/a/"]
        = [S "https://www.lacappellaunderground.org/film/b/",
           S "https://www.lacappellaunderground.org/film/a/"] ∧
    sortedB lexLe (trieste_listing_urls [S "/film/b/", S "/film/a/"]) = false := by
  exact ⟨rfl, rfl⟩

/-- Dropping while `p` holds skips a replicated block satisfying `p`. -/
theorem dropWhile_replicate_append (p : Char → Bool) (c : Char) (hp : p c = true)
    (k : Nat) (l : Str) :
    (List.replicate k c ++ l).dropWhile p = l.dropWhile p := by
  induction k with
  | zero => simp
  | succ n ih => simp [List.replicate_succ, List.dropWhile_cons, hp, ih]

/-- `trim_end_matches(c)` removes exactly a trailing block of `c`s when the
kept part ends in a different char. -/
theorem trimEndMatchesChar_append_replicate (c d : Char) (u : Str) (k : Nat)
    (hlast : u.getLast? = some d) (hne : (d == c) = false) :
    trimEndMatchesChar c (u ++ List.replicate k c) = u := by
  unfold trimEndMatchesChar
  rw [List.reverse_append, List.reverse_replicate]
  rw [dropWhile_replicate_append (fun x => x == c) c (by simp) k u.reverse]
  have hrw : u.reverse.dropWhile (fun x => x == c) = u.reverse := by
    cases hrev : u.reverse with
    | nil => simp
    | cons a t =>
      have ha : a = d := by
        have h1 : u.reverse.head? = u.getLast? := List.head?_reverse u
        rw [hrev, hlast] at h1
        simpa using h1
      rw [List.dropWhile_cons]
      simp [ha, hne]
  rw [hrw, List.reverse_reverse]

/-- `rfindSplit` finds nothing when the char is absent. -/
theorem rfindSplit_eq_none (c : Char) : ∀ l : Str, c ∉ l → rfindSplit c l = none := by
  intro l
  induction l with
  | nil => intro _; rfl
  | cons x xs ih =>
    intro h
    have hx : (x == c) = false := by
      refine beq_eq_false_iff_ne.mpr ?_
      intro he
      exact h (he ▸ List.mem_cons_self x xs)
    rw [rfindSplit, ih (fun hm => h (List.mem_cons_of_mem x hm)), hx]
    simp

/-- `rfindSplit` splits at the last occurrence. -/
theorem rfindSplit_append (c : Char) (r : Str) (hr : c ∉ r) :
    ∀ l : Str, rfindSplit c (l ++ c :: r) = some (l, r) := by
  intro l
  induction l with
  | nil =>
    rw [List.nil_append, rfindSplit, rfindSplit_eq_none c r hr]
    simp
  | cons x xs ih =>
    rw [List.cons_append, rfindSplit, ih]

/-- Core of claim C4: on a URL whose last path segment is
`base ++ sep ++ <12 digits>` with a nonempty, slash-free `base` and `sep` one
of `_`/`-`, `canonical_film_key` strips the separator and timestamp (and any
trailing slashes), yielding a key independent of the 12 digits. -/
theorem canonical_key_strip_aux (p base ts : Str) (sep : Char) (k : Nat)
    (hb : base ≠ []) (hbs : '/' ∉ base) (hsep : sep = '_' ∨ sep = '-')
    (hl : ts.length = 12) (hd : ts.all isAsciiDigit = true) :
    canonical_film_key (p ++ '/' :: (base ++ sep :: ts) ++ List.replicate k '/')
      = p ++ '/' :: '/' :: base ++ [ '/' ] := by
  have hbpos : 0 < base.length := List.length_pos.mpr hb
  have hts_ne : ts ≠ [] := by
    intro h
    rw [h] at hl
    simp at hl
  obtain ⟨d, hdlast⟩ : ∃ d, ts.getLast? = some d := by
    cases hx : ts.getLast? with
    | none => exact absurd (List.getLast?_eq_none_iff.mp hx) hts_ne
    | some d => exact ⟨d, rfl⟩
  have hdmem : d ∈ ts := List.mem_of_mem_getLast? (by simp [hdlast])
  have hddig : isAsciiDigit d = true := List.all_eq_true.mp hd d hdmem
  have hdne : (d == '/') = false := by
    refine beq_eq_false_iff_ne.mpr ?_
    intro he
    rw [he] at hddig
    simp [isAsciiDigit] at hddig
  have hulast : (p ++ '/' :: (base ++ sep :: ts)).getLast? = some d := by
    have hx : ('/' :: (base ++ sep :: ts)) = (('/' :: base) ++ [sep]) ++ ts := by simp
    rw [List.getLast?_append_of_ne_nil p (by simp), hx,
        List.getLast?_append_of_ne_nil _ hts_ne, hdlast]
  have htrim : trimEndMatchesChar '/' (p ++ '/' :: (base ++ sep :: ts) ++ List.replicate k '/')
      = p ++ '/' :: (base ++ sep :: ts) :=
    trimEndMatchesChar_append_replicate '/' d _ k hulast hdne
  have hnot : '/' ∉ base ++ sep :: ts := by
    intro hmem
    rcases List.mem_append.mp hmem with h | h
    · exact hbs h
    · rcases List.mem_cons.mp h with h | h
      · rcases hsep with he | he <;> rw [he] at h <;> simp at h
      · have := List.all_eq_true.mp hd _ h
        simp [isAsciiDigit] at this
  have hrfind : rfindSplit '/' (p ++ '/' :: (base ++ sep :: ts)) = some (p, base ++ sep :: ts) :=
    rfindSplit_append '/' _ hnot p
  have hlen : 13 < (base ++ sep :: ts).length := by
    simp only [List.length_append, List.length_cons, hl]
    omega
  have hseg : base ++ sep :: ts = (base ++ [sep]) ++ ts := by simp
  have hlen12 : (base ++ sep :: ts).length - 12 = (base ++ [sep]).length := by
    simp only [List.length_append, List.length_cons, List.length_nil, hl]
    omega
  have htake : (base ++ sep :: ts).take ((base ++ sep :: ts).length - 12) = base ++ [sep] := by
    rw [hlen12, hseg]
    exact List.take_left (base ++ [sep]) ts
  have hdrop : (base ++ sep :: ts).drop ((base ++ sep :: ts).length - 12) = ts := by
    rw [hlen12, hseg]
    exact List.drop_left (base ++ [sep]) ts
  have hglast : (base ++ [sep]).getLast? = some sep := by
    simp [List.getLast?_concat]
  have hsepok : (sep == '_' || sep == '-') = true := by
    rcases hsep with he | he <;> rw [he] <;> rfl
  unfold canonical_film_key
  rw [htrim]
  try simp only []
  rw [hrfind]
  try simp only []
  rw [if_pos hlen]
  try simp only []
  rw [htake, hdrop, hd]
  try simp only [if_pos]
  try rw [hglast]
  try simp only []
  try rw [hsepok]
  simp [hglast, hsepok, List.dropLast_concat]

/-- Claim C4 (amended): for URLs whose last path segment has a nonempty stem
followed by `_` or `-` and 12 digits, `canonical_film_key` strips the suffix,
so two such URLs differing only in the 12-digit timestamp share one canonical
key.  (When the stem before the separator is empty the code leaves the segment
untouched — see the counterexample.) -/
theorem canonical_film_key_strips_timestamp
    (p base ts1 ts2 : Str) (sep1 sep2 : Char) (k1 k2 : Nat)
    (hb : base ≠ []) (hbs : '/' ∉ base)
    (hsep1 : sep1 = '_' ∨ sep1 = '-') (hsep2 : sep2 = '_' ∨ sep2 = '-')
    (hl1 : ts1.length = 12) (hd1 : ts1.all isAsciiDigit = true)
    (hl2 : ts2.length = 12) (hd2 : ts2.all isAsciiDigit = true) :
    canonical_film_key (p ++ '/' :: (base ++ sep1 :: ts1) ++ List.replicate k1 '/')
        = p ++ '/' :: '/' :: base ++ [ '/' ] ∧
    canonical_film_key (p ++ '/' :: (base ++ sep1 :: ts1) ++ List.replicate k1 '/')
        = canonical_film_key (p ++ '/' :: (base ++ sep2 :: ts2) ++ List.replicate k2 '/') := by
  have h1 := canonical_key_strip_aux p base ts1 sep1 k1 hb hbs hsep1 hl1 hd1
  have h2 := canonical_key_strip_aux p base ts2 sep2 k2 hb hbs hsep2 hl2 hd2
  exact ⟨h1, h1.trans h2.symm⟩

/-- Claim C4 (counterexample): the last path segment `_202602091700` carries a
trailing `_` + 12-digit suffix, yet the code requires a segment longer than 13
chars (a nonempty stem), so nothing is stripped and the two timestamps yield
different keys. -/
theorem canonical_film_key_empty_stem_not_stripped :
    canonical_film_key (S "/film/_202602091700/") = S "/film/_202602091700/" ∧
    canonical_film_key (S "/film/_202602091700/")
        ≠ canonical_film_key (S "/film/_202602091801/") := by
  exact ⟨rfl, by decide⟩

/-- Claim C4 (witness): the spec's own example pair, stripped to the shared
key. -/
theorem canonical_film_key_strips_timestamp_witness :
    canonical_film_key (S "/film/42_202602091700/") = S "/film//42/" ∧
    canonical_film_key (S "/film/42_202602091700/")
        = canonical_film_key (S "/film/42_202602091801/") := by
  have h := canonical_film_key_strips_timestamp (S "/film") (S "42")
    (S "202602091700") (S "202602091801") '_' '_' 1 1
    (by decide) (by decide) (Or.inl rfl) (Or.inl rfl)
    (by decide) (by decide) (by decide) (by decide)
  exact ⟨h.1, h.2⟩

/-- `swAux` consumes a whitespace-free block into the accumulator. -/
theorem swAux_append_nonws : ∀ hs : Str, hs.all (fun c => !c.isWhitespace) = true →
    ∀ (rest acc : Str), swAux (hs ++ rest) acc = swAux rest (hs.reverse ++ acc) := by
  intro hs
  induction hs with
  | nil => intro _ rest acc; simp
  | cons c t ih =>
    intro h rest acc
    have h' := h
    simp only [List.all_cons, Bool.and_eq_true, Bool.not_eq_true'] at h'
    have hc : c.isWhitespace = false := h'.1
    have ht : t.all (fun x => !x.isWhitespace) = true := by
      simpa [List.all_eq_true] using fun x hx => (List.all_eq_true.mp h x (List.mem_cons_of_mem c hx))
    rw [List.cons_append, swAux.eq_def]
    simp only [hc, Bool.false_eq_true, if_false]
    rw [ih ht rest (c :: acc)]
    simp [List.append_assoc]

/-- `swAux` flushes a nonempty accumulator at a space. -/
theorem swAux_ws_flush (rest acc : Str) (hacc : acc ≠ []) :
    swAux (' ' :: rest) acc = acc.reverse :: swAux rest [] := by
  have hacc' : acc.isEmpty = false := by
    cases acc with
    | nil => exact absurd rfl hacc
    | cons a t => rfl
  have hws : (' ' : Char).isWhitespace = true := by decide
  rw [swAux.eq_def]
  simp [hws, hacc']

/-- `split_whitespace` of `<hs> ore <ms> minuti` for whitespace-free nonempty
`hs`, `ms`. -/
theorem rustSplitWhitespace_durata_form (hs ms : Str)
    (h1 : hs ≠ []) (h2 : hs.all (fun c => !c.isWhitespace) = true)
    (h3 : ms ≠ []) (h4 : ms.all (fun c => !c.isWhitespace) = true) :
    rustSplitWhitespace (hs ++ S " ore " ++ ms ++ S " minuti")
      = [hs, S "ore", ms, S "minuti"] := by
  have eL : hs ++ S " ore " ++ ms ++ S " minuti"
      = hs ++ (' ' :: (S "ore" ++ (' ' :: (ms ++ (' ' :: S "minuti"))))) := by
    simp only [List.append_assoc]
    rfl
  unfold rustSplitWhitespace
  rw [eL, swAux_append_nonws hs h2]
  rw [swAux_ws_flush _ _ (by simpa using h1)]
  rw [swAux_append_nonws (S "ore") (by decide)]
  rw [swAux_ws_flush _ _ (by decide)]
  rw [swAux_append_nonws ms h4]
  rw [swAux_ws_flush _ _ (by simpa using h3)]
  have hfin : swAux (S "minuti") [] = [S "minuti"] := by rfl
  rw [hfin]
  simp

/-- `parse::<u32>` only succeeds on nonempty strings. -/
theorem parseU32_ne_nil (s : Str) (n : Nat) (h : parseU32 s = some n) : s ≠ [] := by
  intro he
  rw [he] at h
  simp [parseU32] at h

/-- Claim C6 (amended): a running-time string `<H> ore <M> minuti` parses to
`H*60 + M` total minutes whenever that total is positive and fits in `u32`
(the code leaves a zero total unset and saturates an overflowing one — see the
counterexample for the zero case). -/
theorem durata_ore_minuti_parses_to_total (H M : Nat) (hs ms : Str)
    (hph : parseU32 hs = some H) (hpm : parseU32 ms = some M)
    (hwh : hs.all (fun c => !c.isWhitespace) = true)
    (hwm : ms.all (fun c => !c.isWhitespace) = true)
    (hpos : 0 < H * 60 + M) (hbound : H * 60 + M ≤ u32Max) :
    parse_durata_value (hs ++ S " ore " ++ ms ++ S " minuti") = some (H * 60 + M) := by
  have hsne := parseU32_ne_nil hs H hph
  have msne := parseU32_ne_nil ms M hpm
  have e1 : startsWithL (S "ore") (S "ore") = true := by rfl
  have e2 : parseU32 (S "ore") = none := by rfl
  have e3 : startsWithL (S "minuti") (S "ore") = false := by rfl
  have e4 : startsWithL (S "minuti") (S "min") = true := by rfl
  have e5 : parseU32 (S "minuti") = none := by rfl
  have hscan : durataScan [hs, S "ore", ms, S "minuti"] (0, 0) = (H, M) := by
    simp only [durataScan, hph, hpm, e1, e2, e3, e4, e5, if_true, if_false]
    simp
  have hm : satMul32 H 60 = H * 60 := by
    unfold satMul32 u32Max
    unfold u32Max at hbound
    omega
  have ha : satAdd32 (H * 60) M = H * 60 + M := by
    unfold satAdd32 u32Max
    unfold u32Max at hbound
    omega
  unfold parse_durata_value
  rw [rustSplitWhitespace_durata_form hs ms hsne hwh msne hwm]
  simp only [hscan, hm, ha]
  simp [hpos]

/-- Claim C6 (counterexample): `00 ore 00 minuti` is of the `<H> ore <M>
minuti` form with `H = M = 0`, but the code records a running time only when
the total is positive, so the parsed value is `none`, not `0`. -/
theorem durata_zero_total_left_unset :
    parse_durata_value (S "00 ore 00 minuti") = none ∧
    parseU32 (S "00") = some 0 ∧
    parse_durata_value (S "00 ore 00 minuti") ≠ some (0 * 60 + 0) := by
  refine ⟨rfl, rfl, ?_⟩
  intro h
  simp [show parse_durata_value (S "00 ore 00 minuti") = none from rfl] at h

/-- Claim C6 (witness): the spec's example `01 ore 42 minuti` parses to 102. -/
theorem durata_ore_minuti_parses_to_total_witness :
    parse_durata_value (S "01" ++ S " ore " ++ S "42" ++ S " minuti") = some (1 * 60 + 42) :=
  durata_ore_minuti_parses_to_total 1 42 (S "01") (S "42") (by rfl) (by rfl)
    (by decide) (by decide) (by decide) (by decide)

/-- Folding further same-URL entries into a single-record state accumulates
their showtimes in order. -/
theorem merge_append_same_url (u : Str) :
    ∀ (es : List ScheduleEntry) (pr : UniqueProgram), pr.url = u → (∀ x ∈ es, x.url = u) →
      es.foldl mergePush [pr]
        = [{ pr with showtimes := pr.showtimes ++ es.map (fun e => e.showtime) }] := by
  intro es
  induction es with
  | nil => intro pr _ _; simp
  | cons x xs ih =>
    intro pr hp hall
    have hx : x.url = u := hall x (List.mem_cons_self x xs)
    have heq : pr.url = x.url := by rw [hp, hx]
    have hstep : mergePush [pr] x = [{ pr with showtimes := pr.showtimes ++ [x.showtime] }] := by
      simp [mergePush, heq]
    rw [List.foldl_cons, hstep]
    rw [ih _ (by simp [hp]) (fun y hy => hall y (List.mem_cons_of_mem x hy))]
    simp [List.append_assoc]

/-- Claim C2 (amended): schedule entries sharing one program URL merge into a
single record; its title and poster come from the first entry and its
showtimes accumulate every entry's showtime in encounter order (duplicates
included — see the counterexample). -/
theorem new_bev_merge_collapses_by_url (u : Str) (e : ScheduleEntry) (es : List ScheduleEntry)
    (he : e.url = u) (hall : ∀ x ∈ es, x.url = u) :
    merge_by_url (e :: es)
      = [{ title := e.title, url := e.url,
           showtimes := e.showtime :: es.map (fun x => x.showtime),
           poster_url := e.poster_url }] := by
  unfold merge_by_url
  rw [List.foldl_cons]
  have h0 : mergePush [] e
      = [{ title := e.title, url := e.url, showtimes := [e.showtime],
           poster_url := e.poster_url }] := by
    simp [mergePush]
  rw [h0, merge_append_same_url u es _ (by simp [he]) hall]
  simp

/-- Claim C2 (counterexample): two identical schedule rows produce a merged
record whose showtimes hold the exact-duplicate phrase twice — duplicates are
not dropped. -/
theorem new_bev_merge_keeps_duplicate_showtimes :
    (merge_by_url [nbEntryCex, nbEntryCex]).map (fun p => p.showtimes)
        = [[S "Sat Feb 7 - 7:30", S "Sat Feb 7 - 7:30"]] ∧
    ¬ ([S "Sat Feb 7 - 7:30", S "Sat Feb 7 - 7:30"] : List Str).Nodup := by
  exact ⟨rfl, by decide⟩

/-- Claim C2 (witness): two entries with one URL collapse to one record with
the first entry's title and poster. -/
theorem new_bev_merge_collapses_by_url_witness :
    merge_by_url [nbEntryW1, nbEntryW2]
      = [{ title := nbEntryW1.title, url := nbEntryW1.url,
           showtimes := nbEntryW1.showtime :: [nbEntryW2].map (fun x => x.showtime),
           poster_url := nbEntryW1.poster_url }] :=
  new_bev_merge_collapses_by_url (S "https://thenewbev.com/program/y") nbEntryW1 [nbEntryW2]
    rfl (by intro x hx; simp at hx; subst hx; rfl)

/-- The Trieste discovery loop invariant: the seen set is exactly the
canonical keys of the collected URLs and stays duplicate-free. -/
theorem trieste_url_step_inv (st : List Str × List Str) (h0 : Str)
    (h1 : st.1 = st.2.map canonical_film_key) (h2 : st.1.Pairwise (· ≠ ·)) :
    (trieste_url_step st h0).1 = (trieste_url_step st h0).2.map canonical_film_key ∧
    (trieste_url_step st h0).1.Pairwise (· ≠ ·) := by
  unfold trieste_url_step
  simp only []
  by_cases hemp : (trimL h0).isEmpty = true
  · rw [if_pos hemp]
    exact ⟨h1, h2⟩
  · rw [if_neg hemp]
    by_cases hany : (st.1.any fun k => k == canonical_film_key (absolutize triesteBase (trimL h0))) = true
    · rw [if_pos hany]
      exact ⟨h1, h2⟩
    · rw [if_neg hany]
      have hnotmem : ∀ k ∈ st.1, k ≠ canonical_film_key (absolutize triesteBase (trimL h0)) := by
        intro k hk he
        apply hany
        rw [List.any_eq_true]
        exact ⟨k, hk, by simp [he]⟩
      constructor
      · show st.1 ++ [canonical_film_key (absolutize triesteBase (trimL h0))]
            = List.map canonical_film_key (st.2 ++ [absolutize triesteBase (trimL h0)])
        rw [List.map_append, ← h1]
        rfl
      · rw [List.pairwise_append]
        refine ⟨h2, by simp, ?_⟩
        intro a ha b hb
        simp only [List.mem_singleton] at hb
        subst hb
        exact hnotmem a ha

/-- The discovery fold keeps the invariant. -/
theorem trieste_fold_inv (hrefs : List Str) :
    ∀ st : List Str × List Str, st.1 = st.2.map canonical_film_key → st.1.Pairwise (· ≠ ·) →
      (hrefs.foldl trieste_url_step st).1
          = (hrefs.foldl trieste_url_step st).2.map canonical_film_key ∧
      (hrefs.foldl trieste_url_step st).1.Pairwise (· ≠ ·) := by
  induction hrefs with
  | nil => intro st hA hB; exact ⟨hA, hB⟩
  | cons a t ih =>
    intro st hA hB
    have h := trieste_url_step_inv st a hA hB
    simpa [List.foldl_cons] using ih _ h.1 h.2

/-- Discovered Trieste URLs are pairwise distinct (their canonical keys
are). -/
theorem trieste_listing_urls_pairwise_ne (hrefs : List Str) :
    (trieste_listing_urls hrefs).Pairwise (· ≠ ·) := by
  have h := trieste_fold_inv hrefs ([], []) (by simp) (by simp)
  have hkeys := h.2
  rw [h.1, List.pairwise_map] at hkeys
  refine hkeys.imp ?_
  intro a b hne he
  exact hne (by rw [he])

/-- `filterMap` transports a pairwise relation along the partial map. -/
theorem pairwise_filterMap_of_pairwise {α β : Type _} (g : α → Option β)
    (R : β → β → Prop) (T : α → α → Prop)
    (hg : ∀ a b x y, T a b → g a = some x → g b = some y → R x y) :
    ∀ l : List α, l.Pairwise T → (l.filterMap g).Pairwise R := by
  intro l
  induction l with
  | nil => intro _; simp
  | cons a t ih =>
    intro h
    rw [List.pairwise_cons] at h
    rw [List.filterMap_cons]
    cases hga : g a with
    | none => exact ih h.2
    | some x =>
      refine List.Pairwise.cons ?_ (ih h.2)
      intro y hy
      obtain ⟨b, hb, hgb⟩ := List.mem_filterMap.mp hy
      exact hg a b x y (h.1 b hb) hga hgb

/-- A successful Trieste detail step keeps the candidate URL in the record. -/
theorem trieste_detail_step_url (w : TriesteWorld) (u : Str) (f : Film)
    (h : trieste_detail_step w u = some f) : f.url = u := by
  unfold trieste_detail_step at h
  cases hf : w.fetch u with
  | none => rw [hf] at h; simp at h
  | some body =>
    rw [hf] at h
    try dsimp only [] at h
    cases hd : w.detail body with
    | none => rw [hd] at h; simp at h
    | some fl =>
      rw [hd] at h
      try dsimp only [] at h
      simp only [Option.some.injEq] at h
      rw [← h]

/-- Claim C3 (amended): a Trieste run never returns two records with the same
URL — the canonical-key seen-set makes the candidate URLs pairwise distinct
and each record keeps its candidate URL.  (The Padova scraper, by contrast,
emits one record per JSON entry with no URL deduplication — see the
counterexample.) -/
theorem trieste_urls_unique_per_run (w : TriesteWorld) (films : List Film)
    (h : trieste_fetch_films w = .ok films) :
    films.Pairwise (fun a b => a.url ≠ b.url) := by
  unfold trieste_fetch_films at h
  cases hf : w.fetch triesteListingUrl with
  | none => rw [hf] at h; simp at h
  | some body =>
    rw [hf] at h
    try dsimp only [] at h
    rw [foldl_opt_filterMap (trieste_detail_step w) (trieste_listing_urls (w.anchors body)) []] at h
    rw [List.nil_append] at h
    simp only [Except.ok.injEq] at h
    subst h
    refine pairwise_filterMap_of_pairwise (trieste_detail_step w) _ (fun a b => a ≠ b) ?_
      _ (trieste_listing_urls_pairwise_ne (w.anchors body))
    intro a b x y hab hga hgb
    rw [trieste_detail_step_url w a x hga, trieste_detail_step_url w b y hgb]
    exact hab

/-- Claim C3 (counterexample): two Rex JSON entries whose titles differ only
in case map to one slug, so the Padova scraper returns two distinct records
with the same URL. -/
theorem padova_duplicate_url_records :
    padova_films (fun _ => none) [padovaTitoloA, padovaTitoloB] = [padovaFilmA, padovaFilmB] ∧
    padovaFilmA.url = padovaFilmB.url ∧
    padovaFilmA ≠ padovaFilmB := by
  refine ⟨rfl, rfl, ?_⟩
  decide

/-- Claim C3 (witness): a concrete Trieste run produces records with pairwise
distinct URLs. -/
theorem trieste_urls_unique_per_run_witness :
    List.Pairwise (fun a b : Film => a.url ≠ b.url) [triesteFilm3a, triesteFilm3b] :=
  trieste_urls_unique_per_run triesteWorld3 [triesteFilm3a, triesteFilm3b] (by rfl)

/-- The Cinemazero detail loop errors as soon as any candidate's fetch
fails. -/
theorem cz_detail_loop_error (w : CzWorld) :
    ∀ (l : List Str) (u : Str), u ∈ l → w.fetch u = none →
      cz_detail_loop w l = .error () := by
  intro l
  induction l with
  | nil => intro u h _; simp at h
  | cons a t ih =>
    intro u hm hfu
    rcases List.mem_cons.mp hm with h | h
    · subst h
      simp [cz_detail_loop, hfu]
    · cases hfa : w.fetch a with
      | none => simp [cz_detail_loop, hfa]
      | some body => simp [cz_detail_loop, hfa, ih u h hfu]

/-- Claim C1 (amended): in the Trieste scraper only a listing-fetch failure
propagates — with a fetched listing the call always returns `Ok` with the
records of exactly those candidates whose fetch and parse succeeded; in the
Cinemazero scraper any single detail-page fetch failure aborts the whole
`fetch_films` call with an error (the same `?`-propagation appears in the
Rassegne, Edera-rassegne and Pizzuti scrapers). -/
theorem fetch_films_detail_failure_policy (wT : TriesteWorld) (wC : CzWorld) :
    (wT.fetch triesteListingUrl = none → trieste_fetch_films wT = .error ()) ∧
    (∀ body, wT.fetch triesteListingUrl = some body →
      trieste_fetch_films wT =
        .ok ((trieste_listing_urls (wT.anchors body)).filterMap (trieste_detail_step wT))) ∧
    (∀ body u, wC.fetch czListingUrl = some body →
      u ∈ cz_listing_urls (wC.anchors body) → wC.fetch u = none →
      cinemazero_fetch_films wC = .error ()) := by
  refine ⟨?_, ?_, ?_⟩
  · intro hf
    unfold trieste_fetch_films
    rw [hf]
  · intro body hf
    unfold trieste_fetch_films
    rw [hf]
    try dsimp only []
    rw [foldl_opt_filterMap (trieste_detail_step wT) (trieste_listing_urls (wT.anchors body)) []]
    rw [List.nil_append]
  · intro body u hf hm hfu
    unfold cinemazero_fetch_films
    rw [hf]
    try dsimp only []
    have hne : (cz_listing_urls (wC.anchors body)).isEmpty = false := by
      cases hu : cz_listing_urls (wC.anchors body) with
      | nil => rw [hu] at hm; simp at hm
      | cons a t => rfl
    rw [hne]
    simp only [Bool.false_eq_true, if_false]
    exact cz_detail_loop_error wC _ u hm hfu

/-- Claim C1 (counterexample): a concrete Cinemazero run with three candidate
pages where only the middle detail fetch fails returns an error — it does not
return `Ok` with the two successful records. -/
theorem cinemazero_detail_failure_aborts_run :
    cinemazero_fetch_films czWorldCex = .error () ∧
    (cz_listing_urls (czWorldCex.anchors czBodyCex)).length = 3 ∧
    czWorldCex.fetch (S "https://cinemazero.it/film/a") = some (S "pageA") ∧
    czWorldCex.fetch (S "https://cinemazero.it/film/b") = none := by
  exact ⟨rfl, rfl, rfl, rfl⟩

/-- Claim C1 (witness): the three policy statements at concrete runs. -/
theorem fetch_films_detail_failure_policy_witness :
    trieste_fetch_films triesteWorldFail = .error () ∧
    trieste_fetch_films triesteWorldOk =
      .ok ((trieste_listing_urls (triesteWorldOk.anchors (S "listing"))).filterMap
        (trieste_detail_step triesteWorldOk)) ∧
    cinemazero_fetch_films czWorldCex = .error () :=
  ⟨(fetch_films_detail_failure_policy triesteWorldFail czWorldCex).1 rfl,
   (fetch_films_detail_failure_policy triesteWorldOk czWorldCex).2.1 (S "listing") rfl,
   (fetch_films_detail_failure_policy triesteWorldOk czWorldCex).2.2 czBodyCex
     (S "https://cinemazero.it/film/b") rfl (by decide) rfl⟩

/-- Claim C8: a fetched listing on which URL discovery yields zero candidates
makes `fetch_films` return `Ok([])`, not an error — for Porto Astra and (with
both the structural and the raw pass empty) for Cinergia Conegliano. -/
theorem empty_discovery_yields_ok_empty (wP : PaWorld) (wC : CinWorld) (bodyP bodyC : Str) :
    (wP.fetch wP.listing_url = some bodyP → pa_listing_urls (wP.anchors bodyP) = [] →
      porto_astra_fetch_films wP = .ok []) ∧
    (wC.fetch wC.base_url = some bodyC → cin_ids_from_doc (wC.anchors bodyC) = [] →
      cin_ids_from_raw bodyC = [] → cinergia_fetch_films wC = .ok []) := by
  constructor
  · intro hf hurls
    unfold porto_astra_fetch_films
    rw [hf]
    try dsimp only []
    rw [hurls]
    rfl
  · intro hf hdoc hraw
    unfold cinergia_fetch_films
    rw [hf]
    try dsimp only []
    rw [hdoc, hraw]
    rfl

/-- Claim C8 (witness): concrete empty-listing runs return `Ok([])`. -/
theorem empty_discovery_yields_ok_empty_witness :
    porto_astra_fetch_films paWorld8 = .ok [] ∧ cinergia_fetch_films cinWorld8 = .ok [] :=
  ⟨(empty_discovery_yields_ok_empty paWorld8 cinWorld8 (S "empty") (S "nothing here")).1
      rfl rfl,
   (empty_discovery_yields_ok_empty paWorld8 cinWorld8 (S "empty") (S "nothing here")).2
      rfl rfl rfl⟩

/-- The Porto Astra bold-text fallback only yields nonempty titles. -/
theorem pa_title_from_bolds_ne_nil :
    ∀ (bolds : List (List Str)) (t : Str), pa_title_from_bolds bolds = some t → t ≠ [] := by
  intro bolds
  induction bolds with
  | nil => intro t h; simp [pa_title_from_bolds] at h
  | cons nodes rest ih =>
    intro t h
    rw [pa_title_from_bolds] at h
    split at h
    · rename_i hcond
      simp only [Option.some.injEq] at h
      subst h
      intro he
      rw [he] at hcond
      simp at hcond
    · exact ih t h

/-- The Porto Astra title chain only yields nonempty titles. -/
theorem pa_title_ne_nil (doc : PaDoc) (t : Str) (h : pa_title doc = some t) : t ≠ [] := by
  unfold pa_title at h
  cases hh : doc.headings.head? with
  | none =>
    rw [hh] at h
    try dsimp only [] at h
    exact pa_title_from_bolds_ne_nil doc.bolds t h
  | some nodes =>
    rw [hh] at h
    try dsimp only [] at h
    by_cases he : (elementText nodes).isEmpty = true
    · rw [if_pos he] at h
      try dsimp only [] at h
      exact pa_title_from_bolds_ne_nil doc.bolds t h
    · rw [if_neg he] at h
      try dsimp only [] at h
      simp only [Option.some.injEq] at h
      subst h
      intro hnil
      rw [hnil] at he
      exact he rfl

/-- Claim C9 (amended): every record the Porto Astra scraper emits has a
nonempty title discovered by the heading/bold fallback chain; a page with no
discoverable title is skipped.  (Trieste instead falls back to the URL as
title and Cinergia to a `Film <id>` placeholder — see the counterexample.) -/
theorem porto_astra_titles_nonempty (w : PaWorld) (films : List Film)
    (h : porto_astra_fetch_films w = .ok films) :
    ∀ f ∈ films, f.title ≠ [] := by
  unfold porto_astra_fetch_films at h
  cases hf : w.fetch w.listing_url with
  | none => rw [hf] at h; simp at h
  | some body =>
    rw [hf] at h
    try dsimp only [] at h
    by_cases hurls : (pa_listing_urls (w.anchors body)).isEmpty = true
    · rw [if_pos hurls] at h
      simp only [Except.ok.injEq] at h
      subst h
      intro f hf
      simp at hf
    · rw [if_neg hurls] at h
      rw [foldl_opt_filterMap (pa_detail_step w) (pa_listing_urls (w.anchors body)) []] at h
      rw [List.nil_append] at h
      simp only [Except.ok.injEq] at h
      subst h
      intro f hfmem
      obtain ⟨u, _, hstep⟩ := List.mem_filterMap.mp hfmem
      unfold pa_detail_step at hstep
      cases hfu : w.fetch u with
      | none => rw [hfu] at hstep; simp at hstep
      | some b =>
        rw [hfu] at hstep
        try dsimp only [] at hstep
        cases ht : pa_title (w.parse b) with
        | none => rw [ht] at hstep; simp at hstep
        | some ttl =>
          rw [ht] at hstep
          try dsimp only [] at hstep
          simp only [Option.some.injEq] at hstep
          have := pa_title_ne_nil (w.parse b) ttl ht
          rw [← hstep]
          exact this

/-- Claim C9 (counterexample): a Cinergia detail page with no usable heading
still yields a record, titled with the `Film <id>` placeholder — it is not
dropped. -/
theorem cinergia_placeholder_title_emitted :
    cinergia_fetch_films cinWorld9 = .ok [cinFilm9] ∧
    cinFilm9.title = S "Film 41324" ∧
    cin_title_scan ([] : List (List Str)) = none := by
  exact ⟨rfl, rfl, rfl⟩

/-- Claim C9 (witness): a concrete Porto Astra run's record has a nonempty
title. -/
theorem porto_astra_titles_nonempty_witness : paFilm9.title ≠ [] :=
  porto_astra_titles_nonempty paWorld9 [paFilm9] (by rfl) paFilm9 (by simp)

/-- Claim C5 (witness): the fully populated record's body is the fixed-order
concatenation; the empty record's body is the `Film: <title>` placeholder. -/
theorem feed_entry_guid_and_description_witness :
    (rss_item_of_film filmAllW).description =
      S "Una storia." ++ S "<br/>\n" ++ (S "Cast: " ++ S "Regia: A. Regista") ++ S "<br/>\n"
        ++ (S "Data: " ++ S "12 Febbraio 2026") ++ S "<br/>\n"
        ++ (S "Durata: " ++ S (toString 102) ++ S " minuti") ++ S "<br/>\n"
        ++ (S "<img src=\"" ++ S "https://example.org/p.jpg" ++ S "\" alt=\"Poster\" />") ++ S "<br/>\n"
        ++ (S "Orari: " ++ List.intercalate (S ", ")
              [S "Venerd\u00ec 13 febbraio ore 17:30", S "Sabato 14 febbraio ore 21:00"]) ∧
    (rss_item_of_film filmNoneW).description = S "Film: " ++ filmNoneW.title ∧
    (rss_item_of_film filmAllW).guid = filmAllW.url :=
  ⟨(feed_entry_guid_and_description filmAllW).2.2.1 _ _ _ _ _ _ rfl rfl rfl rfl rfl rfl
      (by decide),
   (feed_entry_guid_and_description filmNoneW).2.2.2.1 rfl rfl rfl rfl rfl rfl,
   (feed_entry_guid_and_description filmAllW).1⟩

end CinemaScrape
